import Mathlib

/-!
Verification of the arrival-time reconciliation and ranking logic of
`scripts/capmetro.py` (`cmd_arrivals`), shallowly embedded in Lean.

Modelling conventions:
* Instants are rationals (seconds); GTFS-RT timestamps (`stu.arrival.time`,
  `stu.departure.time`) are integers, as in the protobuf wire format, with `0`
  denoting an unset field (protobuf default, which Python truthiness treats as
  absent).
* `datetime` subtraction followed by `/ 60` is exact rational arithmetic.
* Python `round` is round-half-to-even (`pyRound`).
* Python string comparison is code-point lexicographic (`lexLt`).
* `local_now()` is modelled by a clock, a function from the index of the read
  to an instant, because the source calls `local_now()` once per candidate
  inside the loop.
* Printing is modelled by a trace of `Event`s.
-/

/-- A row of `routes.txt`, as indexed by `_load_routes` (`routes.get(route_id, {})`). -/
structure Route where
  route_short_name : String
  route_long_name : String
deriving DecidableEq

/-- A row of `trips.txt`, as indexed by `_load_trips` (`trips.get(trip_id, {})`). -/
structure Trip where
  route_id : String
  trip_headsign : String
deriving DecidableEq

/-- A row of `stops.txt`, as indexed by `_load_stops`. -/
structure StopRow where
  stop_name : String
deriving DecidableEq

/-- A GTFS-RT `StopTimeEvent` (`stu.arrival` or `stu.departure`): a POSIX
timestamp and a delay in seconds, both `0` when unset. -/
structure StopTimeEvent where
  time : Int
  delay : Int
deriving DecidableEq

/-- A GTFS-RT `StopTimeUpdate` (`stu` in the source). -/
structure StopTimeUpdate where
  stop_id : String
  arrival : StopTimeEvent
  departure : StopTimeEvent
deriving DecidableEq

/-- One feed entity of the trip-updates feed: `entity.trip_update`, flattened to
its trip descriptor (`tu.trip.trip_id`, `tu.trip.route_id`) and its
`stop_time_update` list. -/
structure TripUpdateEntity where
  trip_id : String
  route_id : String
  stop_time_update : List StopTimeUpdate
deriving DecidableEq

/-- A row of `stop_times.txt` restricted to the fields `cmd_arrivals` reads;
`Option` models Python `dict.get` with a default for a missing key. -/
structure StopTimeRow where
  trip_id : String
  stop_id : String
  arrival_time : Option String
  departure_time : Option String
deriving DecidableEq

/-- The dictionary appended to `rt_arrivals` in the source.  `arrivalTs` is the
raw timestamp whose `strftime` rendering is displayed. -/
structure RTArrival where
  route : String
  headsign : String
  arrivalTs : Int
  mins_away : Int
  delay_mins : Int
deriving DecidableEq

/-- The dictionary appended to `upcoming` in the scheduled fallback branch. -/
structure SchedEntry where
  route : String
  headsign : String
  time : String
deriving DecidableEq

/-- Python `round`: round half to even (banker's rounding), on exact rationals. -/
def pyRound (q : ℚ) : Int :=
  let f := ⌊q⌋
  let r := q - (f : ℚ)
  if r < 1/2 then f
  else if 1/2 < r then f + 1
  else if f % 2 = 0 then f else f + 1

/-- Python code-point lexicographic order on strings (as lists of characters):
the semantics of `<` on `str`. -/
def lexLt : List Char → List Char → Bool
  | [], [] => false
  | [], _ :: _ => true
  | _ :: _, [] => false
  | a :: as, b :: bs =>
    if a < b then true
    else if b < a then false
    else lexLt as bs

/-- The guard `route_filter and route_id != route_filter` of the source: the
entity is skipped exactly when the filter is truthy (present and non-empty)
and the route differs. -/
def routeFilterSkips (route_filter : Option String) (route_id : String) : Bool :=
  match route_filter with
  | none => false
  | some f => if f = "" then false else route_id ≠ f

/-- Lines 306-315 of the source: choose the timestamp and delay of a
stop-time update.  `if stu.arrival.time:` takes the arrival timestamp and
delay; `elif stu.departure.time:` falls back to the departure ones; otherwise
`arrival_time` stays `None`. -/
def stuChosen (stu : StopTimeUpdate) : Option (Int × Int) :=
  if stu.arrival.time ≠ 0 then
    some (stu.arrival.time, if stu.arrival.delay ≠ 0 then stu.arrival.delay else 0)
  else if stu.departure.time ≠ 0 then
    some (stu.departure.time, if stu.departure.delay ≠ 0 then stu.departure.delay else 0)
  else
    none

/-- Lines 317-335 of the source, for one candidate with chosen timestamp `t`
and delay `delay`, at clock reading `now`: resolve route name and headsign,
compute `mins_away = (arrival_time - now).total_seconds() / 60`, drop the
candidate when `mins_away < -5`, and otherwise build the `rt_arrivals` entry
with `round(mins_away)` and `round(delay / 60) if delay else 0`. -/
def mkRTArrival (routes : String → Option Route) (trips : String → Option Trip)
    (trip_id route_id : String) (t delay : Int) (now : ℚ) : Option RTArrival :=
  let rname := match routes route_id with
    | some r => r.route_short_name
    | none => route_id
  let rlong := match routes route_id with
    | some r => r.route_long_name
    | none => ""
  let headsign := match trips trip_id with
    | some ti => ti.trip_headsign
    | none => rlong
  let mins_away : ℚ := ((t : ℚ) - now) / 60
  if mins_away < -5 then none
  else some {
    route := rname
    headsign := headsign
    arrivalTs := t
    mins_away := pyRound mins_away
    delay_mins := if delay ≠ 0 then pyRound ((delay : ℚ) / 60) else 0 }

/-- The inner `for stu in tu.stop_time_update` loop.  The clock index `k`
advances exactly when the source executes `now = local_now()`, i.e. once per
stop-time update at the queried stop that carries a timestamp. -/
def stusLoop (routes : String → Option Route) (trips : String → Option Trip)
    (trip_id route_id stop_idq : String) (clock : Nat → ℚ) :
    List StopTimeUpdate → Nat → List RTArrival × Nat
  | [], k => ([], k)
  | stu :: rest, k =>
    if stu.stop_id = stop_idq then
      match stuChosen stu with
      | some td =>
        let now := clock k
        let res := stusLoop routes trips trip_id route_id stop_idq clock rest (k + 1)
        match mkRTArrival routes trips trip_id route_id td.1 td.2 now with
        | some a => (a :: res.1, res.2)
        | none => res
      | none => stusLoop routes trips trip_id route_id stop_idq clock rest k
    else stusLoop routes trips trip_id route_id stop_idq clock rest k

/-- The outer `for entity in feed.entity` loop, with the
`route_filter and route_id != route_filter: continue` guard. -/
def entitiesLoop (routes : String → Option Route) (trips : String → Option Trip)
    (route_filter : Option String) (stop_idq : String) (clock : Nat → ℚ) :
    List TripUpdateEntity → Nat → List RTArrival × Nat
  | [], k => ([], k)
  | e :: rest, k =>
    if routeFilterSkips route_filter e.route_id then
      entitiesLoop routes trips route_filter stop_idq clock rest k
    else
      let res := stusLoop routes trips e.trip_id e.route_id stop_idq clock e.stop_time_update k
      let res2 := entitiesLoop routes trips route_filter stop_idq clock rest res.2
      (res.1 ++ res2.1, res2.2)

/-- The `rt_arrivals` list built by `cmd_arrivals`, with `local_now()` modelled
by the clock (read once per candidate, as in the source). -/
def rt_arrivals_clocked (routes : String → Option Route) (trips : String → Option Trip)
    (route_filter : Option String) (stop_idq : String) (clock : Nat → ℚ)
    (entities : List TripUpdateEntity) : List RTArrival :=
  (entitiesLoop routes trips route_filter stop_idq clock entities 0).1

/-- `rt_arrivals` when every clock reading returns the same instant `now`. -/
def rt_arrivals (routes : String → Option Route) (trips : String → Option Trip)
    (route_filter : Option String) (stop_idq : String) (now : ℚ)
    (entities : List TripUpdateEntity) : List RTArrival :=
  rt_arrivals_clocked routes trips route_filter stop_idq (fun _ => now) entities

/-- One stop-time update processed at a single instant `now`: the body of the
inner loop (stop match, timestamp choice, candidate construction). -/
def stuArrivalAt (routes : String → Option Route) (trips : String → Option Trip)
    (trip_id route_id stop_idq : String) (now : ℚ) (stu : StopTimeUpdate) :
    Option RTArrival :=
  if stu.stop_id = stop_idq then
    match stuChosen stu with
    | some td => mkRTArrival routes trips trip_id route_id td.1 td.2 now
    | none => none
  else none

/-- Modelled from the spec: the single-`now` reconciliation
`reconcile(query, real_time_candidates, now)` of section 4.1, in which every
candidate's `minutes_away` is computed relative to the same instant `now`. -/
def reconcileRT (routes : String → Option Route) (trips : String → Option Trip)
    (route_filter : Option String) (stop_idq : String) (now : ℚ)
    (entities : List TripUpdateEntity) : List RTArrival :=
  entities.flatMap (fun e =>
    if routeFilterSkips route_filter e.route_id then []
    else e.stop_time_update.filterMap
      (stuArrivalAt routes trips e.trip_id e.route_id stop_idq now))

/-- The comparison underlying `rt_arrivals.sort(key=lambda x: x["mins_away"])`. -/
def minsLe (a b : RTArrival) : Bool := a.mins_away ≤ b.mins_away

/-- The sorted real-time list (`rt_arrivals` after the stable ascending sort by
`mins_away`), before truncation to 15. -/
def rtRanked (routes : String → Option Route) (trips : String → Option Trip)
    (route_filter : Option String) (stop_idq : String) (clock : Nat → ℚ)
    (entities : List TripUpdateEntity) : List RTArrival :=
  (rt_arrivals_clocked routes trips route_filter stop_idq clock entities).mergeSort minsLe

/-- Lines 342-347 of the source: the ETA display label. -/
def etaLabel (m : Int) : String :=
  if m ≤ 0 then "NOW"
  else if m = 1 then "1 min"
  else toString m ++ " min"

/-- Line 341 of the source: the lateness suffix. -/
def delaySuffix (d : Int) : String :=
  if d > 0 then " (+" ++ toString d ++ "m late)" else ""

/-- `_load_stop_times_for_stop`: the rows of `stop_times.txt` whose `stop_id`
matches. -/
def load_stop_times_for_stop (rows : List StopTimeRow) (stop_idq : String) :
    List StopTimeRow :=
  rows.filter (fun r => r.stop_id = stop_idq)

/-- Lines 358-375 of the source: build `upcoming` from the scheduled stop
times.  `arr_time = st.get("arrival_time", st.get("departure_time", ""))`;
the entry is kept when `arr_time > current_time` (Python string comparison). -/
def schedUpcoming (routes : String → Option Route) (trips : String → Option Trip)
    (route_filter : Option String) (current_time : String)
    (stop_times : List StopTimeRow) : List SchedEntry :=
  stop_times.filterMap (fun st =>
    let route_id := match trips st.trip_id with
      | some ti => ti.route_id
      | none => ""
    if routeFilterSkips route_filter route_id then none
    else
      let arr_time := st.arrival_time.getD (st.departure_time.getD "")
      if lexLt current_time.data arr_time.data then
        some {
          route := match routes route_id with
            | some r => r.route_short_name
            | none => route_id
          headsign := match trips st.trip_id with
            | some ti => ti.trip_headsign
            | none => ""
          time := arr_time }
      else none)

/-- The comparison underlying `upcoming.sort(key=lambda x: x["time"])`:
`a` may precede `b` unless `b`'s time string is strictly below `a`'s. -/
def timeLe (a b : SchedEntry) : Bool := !(lexLt b.time.data a.time.data)

/-- The scheduled fallback output: `upcoming` sorted ascending by time string
(stable), truncated to the first 10. -/
def schedRanked (routes : String → Option Route) (trips : String → Option Trip)
    (route_filter : Option String) (current_time : String)
    (stop_times : List StopTimeRow) : List SchedEntry :=
  ((schedUpcoming routes trips route_filter current_time stop_times).mergeSort timeLe).take 10

/-- An entry of the final displayed list, tagged by its source. -/
inductive OutputEntry where
  | realtime (a : RTArrival) (eta : String) (late : String) : OutputEntry
  | scheduled (s : SchedEntry) : OutputEntry
deriving DecidableEq

/-- An observable step of `cmd_arrivals` (a print or a network fetch). -/
inductive Event where
  | missingGtfsMessage : Event
  | stopNotFoundMessage (stop_idq : String) : Event
  | suggestSearchMessage : Event
  | header (stop_name stop_idq : String) : Event
  | fetchTripUpdates : Event
  | emit (entries : List OutputEntry) : Event
deriving DecidableEq

/-- `cmd_arrivals`, as the trace of its observable steps.  The guard order
follows the source: `_ensure_gtfs`, stop lookup (not-found message and
suggestion, then return), header, network fetch of the trip-updates feed, then
either the real-time branch (sort by `mins_away`, first 15, ETA labels) or the
scheduled fallback (filter by current time string, sort, first 10). -/
def cmd_arrivals (gtfs_present : Bool) (stops : String → Option StopRow)
    (routes : String → Option Route) (trips : String → Option Trip)
    (stop_idq : String) (route_filter : Option String)
    (feed : List TripUpdateEntity) (clock : Nat → ℚ)
    (stop_times : List StopTimeRow) (current_time : String) : List Event :=
  if gtfs_present = false then [.missingGtfsMessage]
  else
    match stops stop_idq with
    | none => [.stopNotFoundMessage stop_idq, .suggestSearchMessage]
    | some stop =>
      let rt := rt_arrivals_clocked routes trips route_filter stop_idq clock feed
      if rt = [] then
        [.header stop.stop_name stop_idq, .fetchTripUpdates,
         .emit ((schedRanked routes trips route_filter current_time
            (load_stop_times_for_stop stop_times stop_idq)).map .scheduled)]
      else
        [.header stop.stop_name stop_idq, .fetchTripUpdates,
         .emit (((rt.mergeSort minsLe).take 15).map
            (fun a => .realtime a (etaLabel a.mins_away) (delaySuffix a.delay_mins)))]

/-- Modelled from the spec: the scheduled candidates before the time filter
(step 5 of section 4.1 without the "strictly later than now" condition). -/
def schedEntriesAll (routes : String → Option Route) (trips : String → Option Trip)
    (route_filter : Option String) (stop_times : List StopTimeRow) : List SchedEntry :=
  stop_times.filterMap (fun st =>
    let route_id := match trips st.trip_id with
      | some ti => ti.route_id
      | none => ""
    if routeFilterSkips route_filter route_id then none
    else
      let arr_time := st.arrival_time.getD (st.departure_time.getD "")
      some {
        route := match routes route_id with
          | some r => r.route_short_name
          | none => route_id
        headsign := match trips st.trip_id with
          | some ti => ti.trip_headsign
          | none => ""
        time := arr_time })

def routes0 : String → Option Route := fun _ => none

def trips0 : String → Option Trip := fun _ => none

def stops0 : String → Option StopRow := fun _ => none

def stops1 : String → Option StopRow :=
  fun s => if s = "S" then some { stop_name := "Main" } else none

def stuAt (t : Int) : StopTimeUpdate :=
  { stop_id := "S"
    arrival := { time := t, delay := 0 }
    departure := { time := 0, delay := 0 } }

def entAt (tid : String) (t : Int) : TripUpdateEntity :=
  { trip_id := tid, route_id := "R", stop_time_update := [stuAt t] }

/-- C10 fixture: a stop-time update carrying both timestamps. -/
def stuBoth : StopTimeUpdate :=
  { stop_id := "S", arrival := { time := 500, delay := 30 },
    departure := { time := 900, delay := 60 } }

/-- C10 fixture: a stop-time update carrying only a departure timestamp. -/
def stuDepOnly : StopTimeUpdate :=
  { stop_id := "S", arrival := { time := 0, delay := 0 },
    departure := { time := 900, delay := 60 } }

/-- C10 fixture: a stop-time update carrying no timestamp. -/
def stuNoTime : StopTimeUpdate :=
  { stop_id := "S", arrival := { time := 0, delay := 0 },
    departure := { time := 0, delay := 0 } }

/-- C10 fixture: an entity whose only stop-time update has no timestamp. -/
def entNoTime : TripUpdateEntity :=
  { trip_id := "T", route_id := "R", stop_time_update := [] ++ stuNoTime :: [] }

/-- C10 fixture: the same entity with the timeless update removed. -/
def entEmpty : TripUpdateEntity :=
  { trip_id := "T", route_id := "R", stop_time_update := [] ++ [] }

/-- C3 fixture: the spec example rows with scheduled times 09:45:00, 10:15:00,
10:05:00 at one stop. -/
def exampleRows : List StopTimeRow :=
  [{ trip_id := "t1", stop_id := "S", arrival_time := some "09:45:00",
     departure_time := none },
   { trip_id := "t2", stop_id := "S", arrival_time := some "10:15:00",
     departure_time := none },
   { trip_id := "t3", stop_id := "S", arrival_time := some "10:05:00",
     departure_time := none }]

/-- C8 fixture: a clock that advances 120 seconds between successive reads. -/
def clock8 : Nat → ℚ := fun k => 10000 + 120 * k

/-- C8 fixture: two trip-update entities predicting the same arrival
timestamp 10000 at the queried stop. -/
def feed8 : List TripUpdateEntity := [entAt "T1" 10000, entAt "T2" 10000]

theorem stusLoop_const (routes : String → Option Route) (trips : String → Option Trip)
    (trip_id route_id stop_idq : String) (now : ℚ) :
    ∀ (stus : List StopTimeUpdate) (k : Nat),
      (stusLoop routes trips trip_id route_id stop_idq (fun _ => now) stus k).1
        = stus.filterMap (stuArrivalAt routes trips trip_id route_id stop_idq now)
  | [], k => by simp [stusLoop]
  | stu :: rest, k => by
    simp only [stusLoop, List.filterMap_cons, stuArrivalAt]
    by_cases hs : stu.stop_id = stop_idq
    · simp only [hs, if_pos rfl]
      cases hc : stuChosen stu with
      | none => simp [stusLoop_const routes trips trip_id route_id stop_idq now rest k]
      | some td =>
        cases hm : mkRTArrival routes trips trip_id route_id td.1 td.2 now with
        | none => simp [hm, stusLoop_const routes trips trip_id route_id stop_idq now rest (k + 1)]
        | some a => simp [hm, stusLoop_const routes trips trip_id route_id stop_idq now rest (k + 1)]
    · simp [hs, stusLoop_const routes trips trip_id route_id stop_idq now rest k]

theorem entitiesLoop_const (routes : String → Option Route) (trips : String → Option Trip)
    (route_filter : Option String) (stop_idq : String) (now : ℚ) :
    ∀ (entities : List TripUpdateEntity) (k : Nat),
      (entitiesLoop routes trips route_filter stop_idq (fun _ => now) entities k).1
        = reconcileRT routes trips route_filter stop_idq now entities
  | [], k => by simp [entitiesLoop, reconcileRT]
  | e :: rest, k => by
    simp only [entitiesLoop, reconcileRT, List.flatMap_cons]
    by_cases hf : routeFilterSkips route_filter e.route_id
    · simpa [hf, reconcileRT] using
        entitiesLoop_const routes trips route_filter stop_idq now rest k
    · simp only [hf, if_neg, Bool.false_eq_true, not_false_eq_true, if_false]
      rw [stusLoop_const]
      simp only [reconcileRT] at entitiesLoop_const ⊢
      rw [entitiesLoop_const routes trips route_filter stop_idq now rest]

theorem rt_arrivals_eq_reconcileRT (routes : String → Option Route)
    (trips : String → Option Trip) (route_filter : Option String) (stop_idq : String)
    (now : ℚ) (entities : List TripUpdateEntity) :
    rt_arrivals routes trips route_filter stop_idq now entities
      = reconcileRT routes trips route_filter stop_idq now entities := by
  unfold rt_arrivals rt_arrivals_clocked
  exact entitiesLoop_const routes trips route_filter stop_idq now entities 0

theorem lexLt_asymm : ∀ (as bs : List Char), lexLt as bs = true → lexLt bs as = false
  | [], [] => by simp [lexLt]
  | [], _ :: _ => by simp [lexLt]
  | _ :: _, [] => by simp [lexLt]
  | a :: as, b :: bs => by
    simp only [lexLt]
    rcases lt_trichotomy a b with h | h | h
    · simp [h, not_lt_of_gt h]
    · subst h
      simp only [lt_irrefl, if_false]
      exact lexLt_asymm as bs
    · simp [h, not_lt_of_gt h]

theorem lexLt_total_of_lt : ∀ (as bs cs : List Char),
    lexLt cs as = true → lexLt cs bs = true ∨ lexLt bs as = true
  | as, bs, [] => by
    cases as with
    | nil => simp [lexLt]
    | cons a as =>
      cases bs with
      | nil => simp [lexLt]
      | cons b bs => simp [lexLt]
  | as, bs, c :: cs => by
    cases as with
    | nil => simp [lexLt]
    | cons a as =>
      cases bs with
      | nil => simp [lexLt]
      | cons b bs =>
        simp only [lexLt]
        intro h
        rcases lt_trichotomy c b with hcb | hcb | hcb
        · left
          simp [hcb]
        · subst hcb
          rcases lt_trichotomy c a with hca | hca | hca
          · right
            simp [hca]
          · subst hca
            simp only [lt_irrefl, if_false] at h
            rcases lexLt_total_of_lt as bs cs h with h1 | h1
            · left
              simp [lt_irrefl, h1]
            · right
              simp [lt_irrefl, h1]
          · rw [if_neg (asymm hca), if_pos hca] at h
            exact absurd h (by simp)
        · rcases lt_trichotomy c a with hca | hca | hca
          · right
            simp [lt_trans hcb hca]
          · subst hca
            right
            simp [hcb]
          · rw [if_neg (asymm hca), if_pos hca] at h
            exact absurd h (by simp)

theorem timeLe_trans (a b c : SchedEntry) (hab : timeLe a b) (hbc : timeLe b c) :
    timeLe a c := by
  simp only [timeLe, Bool.not_eq_true'] at *
  cases hca : lexLt c.time.data a.time.data with
  | false => rfl
  | true =>
    rcases lexLt_total_of_lt a.time.data b.time.data c.time.data hca with h | h
    · rw [hbc] at h
      exact absurd h (by simp)
    · rw [hab] at h
      exact absurd h (by simp)

theorem timeLe_total (a b : SchedEntry) : timeLe a b || timeLe b a := by
  simp only [timeLe, Bool.or_eq_true, Bool.not_eq_true']
  cases hba : lexLt b.time.data a.time.data with
  | false => exact Or.inl rfl
  | true => exact Or.inr (lexLt_asymm _ _ hba)

theorem minsLe_trans (a b c : RTArrival) (hab : minsLe a b) (hbc : minsLe b c) :
    minsLe a c := by
  simp only [minsLe, decide_eq_true_eq] at *
  omega

theorem minsLe_total (a b : RTArrival) : minsLe a b || minsLe b a := by
  simp only [minsLe, Bool.or_eq_true, decide_eq_true_eq]
  omega

theorem mkRTArrival_isSome (routes : String → Option Route) (trips : String → Option Trip)
    (trip_id route_id : String) (t delay : Int) (now : ℚ) :
    (mkRTArrival routes trips trip_id route_id t delay now).isSome
      ↔ ¬ ((t : ℚ) - now) / 60 < -5 := by
  simp only [mkRTArrival]
  by_cases hlt : ((t : ℚ) - now) / 60 < -5
  · simp [hlt]
  · simp [hlt]

theorem mkRTArrival_some_spec {routes : String → Option Route} {trips : String → Option Trip}
    {trip_id route_id : String} {t delay : Int} {now : ℚ} {a : RTArrival}
    (h : mkRTArrival routes trips trip_id route_id t delay now = some a) :
    ¬ ((t : ℚ) - now) / 60 < -5
    ∧ a.arrivalTs = t
    ∧ a.mins_away = pyRound (((t : ℚ) - now) / 60)
    ∧ a.delay_mins = (if delay ≠ 0 then pyRound ((delay : ℚ) / 60) else 0) := by
  simp only [mkRTArrival] at h
  by_cases hlt : ((t : ℚ) - now) / 60 < -5
  · rw [if_pos hlt] at h
    exact absurd h (by simp)
  · rw [if_neg hlt] at h
    cases Option.some.inj h
    simp [hlt]

theorem mem_rt_arrivals {routes : String → Option Route} {trips : String → Option Trip}
    {route_filter : Option String} {stop_idq : String} {now : ℚ}
    {entities : List TripUpdateEntity} {a : RTArrival}
    (h : a ∈ rt_arrivals routes trips route_filter stop_idq now entities) :
    ∃ e ∈ entities, routeFilterSkips route_filter e.route_id = false
      ∧ ∃ stu ∈ e.stop_time_update, stu.stop_id = stop_idq
        ∧ ∃ td, stuChosen stu = some td
          ∧ mkRTArrival routes trips e.trip_id e.route_id td.1 td.2 now = some a := by
  rw [rt_arrivals_eq_reconcileRT] at h
  simp only [reconcileRT, List.mem_flatMap] at h
  obtain ⟨e, he, hmem⟩ := h
  by_cases hf : routeFilterSkips route_filter e.route_id
  · simp [hf] at hmem
  · rw [if_neg (by simp [hf])] at hmem
    simp only [List.mem_filterMap] at hmem
    obtain ⟨stu, hstu, hsome⟩ := hmem
    refine ⟨e, he, by simp [hf], stu, hstu, ?_⟩
    simp only [stuArrivalAt] at hsome
    by_cases hs : stu.stop_id = stop_idq
    · rw [if_pos hs] at hsome
      cases hc : stuChosen stu with
      | none =>
        rw [hc] at hsome
        exact absurd hsome (by simp)
      | some td =>
        rw [hc] at hsome
        exact ⟨hs, td, rfl, hsome⟩
    · rw [if_neg hs] at hsome
      exact absurd hsome (by simp)

theorem schedUpcoming_eq_filter (routes : String → Option Route)
    (trips : String → Option Trip) (route_filter : Option String)
    (current_time : String) (stop_times : List StopTimeRow) :
    schedUpcoming routes trips route_filter current_time stop_times
      = (schedEntriesAll routes trips route_filter stop_times).filter
          (fun e => lexLt current_time.data e.time.data) := by
  rw [schedEntriesAll, List.filter_filterMap]
  unfold schedUpcoming
  congr 1
  funext st
  by_cases hf : routeFilterSkips route_filter
      (match trips st.trip_id with
        | some ti => ti.route_id
        | none => "")
  · simp [hf]
  · by_cases ht : lexLt current_time.data
        (st.arrival_time.getD (st.departure_time.getD "")).data
    · simp [hf, ht, Option.filter]
    · simp [hf, ht, Option.filter]

/-- C1 counterexample: at `now = 1312` a candidate with arrival timestamp 1000
is 312 seconds (5.2 minutes) in the past.  Its `minutes_away` rounded to the
nearest integer is -5, which is not less than -5, so the claim says it is
kept; the code discards it (the filter `mins_away < -5` runs on the unrounded
value), so `rt_arrivals` is empty. -/
theorem claim_C1_counterexample :
    rt_arrivals routes0 trips0 none "S" 1312 [entAt "T" 1000] = []
    ∧ pyRound (((1000 : ℚ) - 1312) / 60) = -5
    ∧ ¬ pyRound (((1000 : ℚ) - 1312) / 60) < -5 := by
  refine ⟨?_, ?_, ?_⟩
  · rw [rt_arrivals_eq_reconcileRT]
    norm_num [reconcileRT, stuArrivalAt, stuChosen, mkRTArrival, routeFilterSkips,
      entAt, stuAt, routes0, trips0]
  · unfold pyRound
    norm_num
  · unfold pyRound
    norm_num

/-- C1 amended: for every candidate the code computes the exact (unrounded)
difference `(arrival_instant - now) / 60` minutes; the candidate is discarded
if and only if that unrounded value is less than -5 (so a candidate whose
unrounded value equals exactly -5 is kept), and the `minutes_away` stored for
a surviving candidate is that value rounded to the nearest integer (half to
even).  Every entry of `rt_arrivals` satisfies the same two facts. -/
theorem claim_C1_amended (routes : String → Option Route) (trips : String → Option Trip)
    (route_filter : Option String) (stop_idq trip_id route_id : String)
    (t delay : Int) (now : ℚ) (entities : List TripUpdateEntity) :
    ((mkRTArrival routes trips trip_id route_id t delay now).isSome
        ↔ ¬ ((t : ℚ) - now) / 60 < -5)
    ∧ (∀ a, mkRTArrival routes trips trip_id route_id t delay now = some a →
        a.mins_away = pyRound (((t : ℚ) - now) / 60))
    ∧ (∀ a ∈ rt_arrivals routes trips route_filter stop_idq now entities,
        ¬ ((a.arrivalTs : ℚ) - now) / 60 < -5
        ∧ a.mins_away = pyRound (((a.arrivalTs : ℚ) - now) / 60)) := by
  refine ⟨mkRTArrival_isSome routes trips trip_id route_id t delay now, ?_, ?_⟩
  · intro a ha
    exact (mkRTArrival_some_spec ha).2.2.1
  · intro a ha
    obtain ⟨e, _, _, stu, _, _, td, _, hmk⟩ := mem_rt_arrivals ha
    obtain ⟨hlt, hts, hmins, _⟩ := mkRTArrival_some_spec hmk
    rw [hts]
    exact ⟨hlt, hmins⟩

/-- C1 witness: a candidate 300 seconds in the past (unrounded minutes exactly
-5) is kept and gets `minutes_away` -5. -/
theorem claim_C1_witness :
    (mkRTArrival routes0 trips0 "T" "R" 700 0 1000).isSome := by
  have h := (claim_C1_amended routes0 trips0 none "S" "T" "R" 700 0 1000 []).1
  rw [h]
  norm_num

/-- C4 counterexample: a candidate whose computed `minutes_away` is exactly -5
(arrival 300 seconds before `now`) is NOT excluded: the staleness filter is
strict on the unrounded value, so the candidate appears in `rt_arrivals` with
`mins_away = -5`, and its label is "NOW". -/
theorem claim_C4_counterexample :
    rt_arrivals routes0 trips0 none "S" 1300 [entAt "T" 1000]
      = [{ route := "R", headsign := "", arrivalTs := 1000,
           mins_away := -5, delay_mins := 0 }]
    ∧ etaLabel (-5) = "NOW" := by
  constructor
  · rw [rt_arrivals_eq_reconcileRT]
    norm_num [reconcileRT, List.filterMap_cons, stuArrivalAt, stuChosen, mkRTArrival,
      routeFilterSkips, entAt, stuAt, routes0, trips0, pyRound]
  · decide

/-- C4 amended: at the staleness boundary the cutoff applies to the unrounded
minutes difference and is strict: a candidate whose exact minutes difference
is -5 is included (with stored `minutes_away` -5, labeled "NOW" by the ≤ 0
rule), and one at -4 is likewise included and labeled "NOW"; only candidates
strictly below -5 unrounded minutes are excluded. -/
theorem claim_C4_amended (routes : String → Option Route) (trips : String → Option Trip)
    (trip_id route_id : String) (t delay : Int) (now : ℚ) :
    (((t : ℚ) - now) / 60 = -5 →
      ∃ a, mkRTArrival routes trips trip_id route_id t delay now = some a
        ∧ a.mins_away = -5 ∧ etaLabel a.mins_away = "NOW")
    ∧ (((t : ℚ) - now) / 60 = -4 →
      ∃ a, mkRTArrival routes trips trip_id route_id t delay now = some a
        ∧ a.mins_away = -4 ∧ etaLabel a.mins_away = "NOW")
    ∧ (((t : ℚ) - now) / 60 < -5 →
      mkRTArrival routes trips trip_id route_id t delay now = none) := by
  have spec5 : pyRound (-5) = -5 := by
    unfold pyRound
    norm_num
  have spec4 : pyRound (-4) = -4 := by
    unfold pyRound
    norm_num
  refine ⟨?_, ?_, ?_⟩
  · intro h
    have hns : ¬ ((t : ℚ) - now) / 60 < -5 := by
      rw [h]
      norm_num
    obtain ⟨a, ha⟩ := Option.isSome_iff_exists.mp
      ((mkRTArrival_isSome routes trips trip_id route_id t delay now).mpr hns)
    obtain ⟨-, -, hmins, -⟩ := mkRTArrival_some_spec ha
    rw [h, spec5] at hmins
    exact ⟨a, ha, hmins, by rw [hmins]; decide⟩
  · intro h
    have hns : ¬ ((t : ℚ) - now) / 60 < -5 := by
      rw [h]
      norm_num
    obtain ⟨a, ha⟩ := Option.isSome_iff_exists.mp
      ((mkRTArrival_isSome routes trips trip_id route_id t delay now).mpr hns)
    obtain ⟨-, -, hmins, -⟩ := mkRTArrival_some_spec ha
    rw [h, spec4] at hmins
    exact ⟨a, ha, hmins, by rw [hmins]; decide⟩
  · intro h
    simp only [mkRTArrival]
    rw [if_pos h]

/-- C4 witness: concrete instances of the boundary behavior at unrounded
minutes -5 (timestamp 700 at now 1000) and -4 (timestamp 760 at now 1000). -/
theorem claim_C4_witness :
    (∃ a, mkRTArrival routes0 trips0 "T" "R" 700 0 1000 = some a
      ∧ a.mins_away = -5 ∧ etaLabel a.mins_away = "NOW")
    ∧ (∃ a, mkRTArrival routes0 trips0 "T" "R" 760 0 1000 = some a
      ∧ a.mins_away = -4 ∧ etaLabel a.mins_away = "NOW")
    ∧ mkRTArrival routes0 trips0 "T" "R" 600 0 1000 = none :=
  ⟨(claim_C4_amended routes0 trips0 "T" "R" 700 0 1000).1 (by norm_num),
   (claim_C4_amended routes0 trips0 "T" "R" 760 0 1000).2.1 (by norm_num),
   (claim_C4_amended routes0 trips0 "T" "R" 600 0 1000).2.2 (by norm_num)⟩

theorem mergeSort_pair {α : Type} (le : α → α → Bool) (a b : α) :
    List.mergeSort [a, b] le = if le a b then [a, b] else [b, a] := by
  rw [List.mergeSort]
  simp [List.splitInTwo, List.merge]

/-- C2: when at least one real-time candidate survives the staleness filter,
the emitted list consists only of real-time-sourced entries: no scheduled
entry ever appears, and the trace is header, fetch, one emit of real-time
entries.  (The scheduled fallback is thus used only when zero real-time
candidates survive.) -/
theorem claim_C2 (stops : String → Option StopRow) (routes : String → Option Route)
    (trips : String → Option Trip) (stop_idq : String) (route_filter : Option String)
    (feed : List TripUpdateEntity) (clock : Nat → ℚ) (stop_times : List StopTimeRow)
    (current_time : String) (stop : StopRow)
    (hstop : stops stop_idq = some stop)
    (hrt : rt_arrivals_clocked routes trips route_filter stop_idq clock feed ≠ []) :
    ∃ entries, cmd_arrivals true stops routes trips stop_idq route_filter feed clock
        stop_times current_time
      = [Event.header stop.stop_name stop_idq, Event.fetchTripUpdates, Event.emit entries]
      ∧ (∀ x ∈ entries, ∃ a eta late, x = OutputEntry.realtime a eta late)
      ∧ (∀ s, OutputEntry.scheduled s ∉ entries) := by
  unfold cmd_arrivals
  simp only [hstop, Bool.true_eq_false, if_false, if_neg hrt]
  refine ⟨_, rfl, ?_, ?_⟩
  · intro x hx
    obtain ⟨a, -, rfl⟩ := List.mem_map.mp hx
    exact ⟨a, _, _, rfl⟩
  · intro s hs
    obtain ⟨a, -, h⟩ := List.mem_map.mp hs
    exact absurd h (by simp)

/-- C2 witness: a concrete query where one real-time candidate survives. -/
theorem claim_C2_witness :
    ∃ entries, cmd_arrivals true stops1 routes0 trips0 "S" none [entAt "T" 1000]
        (fun _ => (940 : ℚ)) [] ""
      = [Event.header "Main" "S", Event.fetchTripUpdates, Event.emit entries]
      ∧ (∀ x ∈ entries, ∃ a eta late, x = OutputEntry.realtime a eta late)
      ∧ (∀ s, OutputEntry.scheduled s ∉ entries) :=
  claim_C2 stops1 routes0 trips0 "S" none [entAt "T" 1000] (fun _ => (940 : ℚ)) [] ""
    { stop_name := "Main" } (by simp [stops1])
    (by
      show rt_arrivals routes0 trips0 none "S" 940 [entAt "T" 1000] ≠ []
      rw [rt_arrivals_eq_reconcileRT]
      norm_num [reconcileRT, List.filterMap_cons, stuArrivalAt, stuChosen, mkRTArrival,
        routeFilterSkips, entAt, stuAt, routes0, trips0])

/-- C5: any emitted result list has length at most 15, and when it comes from
the scheduled-fallback branch (no surviving real-time candidate) at most 10. -/
theorem claim_C5 (gtfs_present : Bool) (stops : String → Option StopRow)
    (routes : String → Option Route) (trips : String → Option Trip)
    (stop_idq : String) (route_filter : Option String) (feed : List TripUpdateEntity)
    (clock : Nat → ℚ) (stop_times : List StopTimeRow) (current_time : String) :
    ∀ entries, Event.emit entries ∈ cmd_arrivals gtfs_present stops routes trips stop_idq
        route_filter feed clock stop_times current_time →
      entries.length ≤ 15
      ∧ (rt_arrivals_clocked routes trips route_filter stop_idq clock feed = [] →
          entries.length ≤ 10) := by
  intro entries hmem
  unfold cmd_arrivals at hmem
  by_cases hg : gtfs_present = false
  · simp [hg] at hmem
  · rw [if_neg hg] at hmem
    cases hstop : stops stop_idq with
    | none =>
      rw [hstop] at hmem
      simp at hmem
    | some stop =>
      rw [hstop] at hmem
      by_cases hrt : rt_arrivals_clocked routes trips route_filter stop_idq clock feed = []
      · simp only [hrt, if_pos, List.mem_cons, List.not_mem_nil, or_false, reduceCtorEq,
          false_or, Event.emit.injEq] at hmem
        subst hmem
        have h10 : (List.map OutputEntry.scheduled
            (schedRanked routes trips route_filter current_time
              (load_stop_times_for_stop stop_times stop_idq))).length ≤ 10 := by
          rw [List.length_map, schedRanked]
          exact List.length_take_le 10 _
        exact ⟨le_trans h10 (by omega), fun _ => h10⟩
      · simp only [hrt, if_neg, if_false, List.mem_cons, List.not_mem_nil, or_false,
          reduceCtorEq, false_or, Event.emit.injEq] at hmem
        subst hmem
        refine ⟨?_, fun h => absurd h hrt⟩
        rw [List.length_map]
        exact List.length_take_le 15 _

/-- C5 witness: a concrete scheduled-branch run (no real-time candidates). -/
theorem claim_C5_witness :
    ([] : List OutputEntry).length ≤ 15
    ∧ (rt_arrivals_clocked routes0 trips0 none "S" (fun _ => (0 : ℚ)) [] = [] →
        ([] : List OutputEntry).length ≤ 10) :=
  claim_C5 true stops1 routes0 trips0 "S" none [] (fun _ => (0 : ℚ)) [] "" [] (by
    unfold cmd_arrivals
    norm_num [stops1, rt_arrivals_clocked, entitiesLoop, schedRanked, schedUpcoming,
      load_stop_times_for_stop])

/-- C6: the sorted real-time list is sorted non-decreasing by `mins_away`, is a
permutation of the surviving candidates, and the sort is stable: two surviving
candidates with equal `mins_away` keep their original feed order. -/
theorem claim_C6 (routes : String → Option Route) (trips : String → Option Trip)
    (route_filter : Option String) (stop_idq : String) (clock : Nat → ℚ)
    (feed : List TripUpdateEntity) :
    (rtRanked routes trips route_filter stop_idq clock feed).Pairwise
        (fun a b => a.mins_away ≤ b.mins_away)
    ∧ ((rtRanked routes trips route_filter stop_idq clock feed).take 15).Pairwise
        (fun a b => a.mins_away ≤ b.mins_away)
    ∧ (rtRanked routes trips route_filter stop_idq clock feed).Perm
        (rt_arrivals_clocked routes trips route_filter stop_idq clock feed)
    ∧ (∀ a b,
        [a, b].Sublist (rt_arrivals_clocked routes trips route_filter stop_idq clock feed) →
        a.mins_away = b.mins_away →
        [a, b].Sublist (rtRanked routes trips route_filter stop_idq clock feed)) := by
  have hsorted : (rtRanked routes trips route_filter stop_idq clock feed).Pairwise
      (fun a b => a.mins_away ≤ b.mins_away) :=
    (List.sorted_mergeSort minsLe_trans minsLe_total _).imp
      (by simp [minsLe])
  refine ⟨hsorted, List.Pairwise.sublist (List.take_sublist 15 _) hsorted, List.mergeSort_perm _ _, ?_⟩
  intro a b hsub heq
  exact List.pair_sublist_mergeSort minsLe_trans minsLe_total
    (by simp [minsLe, heq]) hsub

/-- C6 witness: two candidates with equal `mins_away` stay in feed order. -/
theorem claim_C6_witness :
    [({ route := "R", headsign := "", arrivalTs := 1000, mins_away := 1,
        delay_mins := 0 } : RTArrival),
     { route := "R", headsign := "", arrivalTs := 1000, mins_away := 1,
        delay_mins := 0 }].Sublist
      (rtRanked routes0 trips0 none "S" (fun _ => (940 : ℚ))
        [entAt "T1" 1000, entAt "T2" 1000]) := by
  have hlist : rt_arrivals_clocked routes0 trips0 none "S" (fun _ => (940 : ℚ))
      [entAt "T1" 1000, entAt "T2" 1000]
      = [{ route := "R", headsign := "", arrivalTs := 1000, mins_away := 1,
           delay_mins := 0 },
         { route := "R", headsign := "", arrivalTs := 1000, mins_away := 1,
           delay_mins := 0 }] := by
    show rt_arrivals routes0 trips0 none "S" 940 _ = _
    rw [rt_arrivals_eq_reconcileRT]
    norm_num [reconcileRT, List.filterMap_cons, stuArrivalAt, stuChosen, mkRTArrival,
      routeFilterSkips, entAt, stuAt, routes0, trips0, pyRound]
  exact (claim_C6 routes0 trips0 none "S" (fun _ => (940 : ℚ))
      [entAt "T1" 1000, entAt "T2" 1000]).2.2.2 _ _
    (by rw [hlist]) rfl

/-- C7: the display label of a real-time entry is "NOW" when `mins_away ≤ 0`,
"1 min" when it equals 1, and "N min" otherwise; every real-time entry emitted
by `cmd_arrivals` carries exactly `etaLabel` of its `mins_away`. -/
theorem claim_C7 :
    (∀ m : Int, (m ≤ 0 → etaLabel m = "NOW")
      ∧ (m = 1 → etaLabel m = "1 min")
      ∧ (0 < m → m ≠ 1 → etaLabel m = toString m ++ " min"))
    ∧ (∀ (gtfs_present : Bool) (stops : String → Option StopRow)
        (routes : String → Option Route) (trips : String → Option Trip)
        (stop_idq : String) (route_filter : Option String) (feed : List TripUpdateEntity)
        (clock : Nat → ℚ) (stop_times : List StopTimeRow) (current_time : String)
        (entries : List OutputEntry) (a : RTArrival) (eta late : String),
        Event.emit entries ∈ cmd_arrivals gtfs_present stops routes trips stop_idq
            route_filter feed clock stop_times current_time →
        OutputEntry.realtime a eta late ∈ entries →
        eta = etaLabel a.mins_away) := by
  constructor
  · intro m
    refine ⟨?_, ?_, ?_⟩
    · intro h
      rw [etaLabel, if_pos h]
    · intro h
      subst h
      decide
    · intro h1 h2
      rw [etaLabel, if_neg (by omega), if_neg h2]
  · intro gtfs_present stops routes trips stop_idq route_filter feed clock stop_times
      current_time entries a eta late hmem hentry
    unfold cmd_arrivals at hmem
    by_cases hg : gtfs_present = false
    · simp [hg] at hmem
    · rw [if_neg hg] at hmem
      cases hstop : stops stop_idq with
      | none =>
        rw [hstop] at hmem
        simp at hmem
      | some stop =>
        rw [hstop] at hmem
        by_cases hrt : rt_arrivals_clocked routes trips route_filter stop_idq clock feed = []
        · simp only [hrt, if_pos, List.mem_cons, List.not_mem_nil, or_false, reduceCtorEq,
            false_or, Event.emit.injEq] at hmem
          subst hmem
          obtain ⟨s, -, hs⟩ := List.mem_map.mp hentry
          exact absurd hs (by simp)
        · simp only [hrt, if_neg, if_false, List.mem_cons, List.not_mem_nil, or_false,
            reduceCtorEq, false_or, Event.emit.injEq] at hmem
          subst hmem
          obtain ⟨b, -, hb⟩ := List.mem_map.mp hentry
          obtain ⟨rfl, rfl, -⟩ := OutputEntry.realtime.inj hb
          rfl

/-- C7 witness: concrete labels (0 → "NOW", 1 → "1 min", 7 → "7 min") and a
concrete emitted real-time entry whose label is `etaLabel` of its minutes. -/
theorem claim_C7_witness :
    etaLabel 0 = "NOW" ∧ etaLabel 1 = "1 min" ∧ etaLabel 7 = toString (7 : Int) ++ " min"
    ∧ "1 min" = etaLabel (1 : Int) := by
  have h1 := (claim_C7.1 0).1 le_rfl
  have h2 := (claim_C7.1 1).2.1 rfl
  have h3 := (claim_C7.1 7).2.2 (by omega) (by omega)
  have hrt : rt_arrivals_clocked routes0 trips0 none "S" (fun _ => (940 : ℚ))
      [entAt "T" 1000]
      = [{ route := "R", headsign := "", arrivalTs := 1000, mins_away := 1,
           delay_mins := 0 }] := by
    show rt_arrivals routes0 trips0 none "S" 940 _ = _
    rw [rt_arrivals_eq_reconcileRT]
    norm_num [reconcileRT, List.filterMap_cons, stuArrivalAt, stuChosen, mkRTArrival,
      routeFilterSkips, entAt, stuAt, routes0, trips0, pyRound]
  have hcmd : cmd_arrivals true stops1 routes0 trips0 "S" none [entAt "T" 1000]
      (fun _ => (940 : ℚ)) [] ""
      = [Event.header "Main" "S", Event.fetchTripUpdates,
         Event.emit [OutputEntry.realtime
           { route := "R", headsign := "", arrivalTs := 1000, mins_away := 1,
             delay_mins := 0 } "1 min" ""]] := by
    unfold cmd_arrivals
    simp [stops1, hrt, mergeSort_pair, List.mergeSort_singleton, etaLabel, delaySuffix]
  have h4 := claim_C7.2 true stops1 routes0 trips0 "S" none [entAt "T" 1000]
    (fun _ => (940 : ℚ)) [] ""
    [OutputEntry.realtime
      { route := "R", headsign := "", arrivalTs := 1000, mins_away := 1,
        delay_mins := 0 } "1 min" ""]
    { route := "R", headsign := "", arrivalTs := 1000, mins_away := 1, delay_mins := 0 }
    "1 min" "" (by rw [hcmd]; simp) (by simp)
  exact ⟨h1, h2, h3, h4⟩

/-- C9: when the queried stop id is not in the static data, `cmd_arrivals`
prints the not-found message and the search suggestion and returns: the trace
contains no network fetch of the trip-updates feed and no emitted arrivals. -/
theorem claim_C9 (stops : String → Option StopRow) (routes : String → Option Route)
    (trips : String → Option Trip) (stop_idq : String) (route_filter : Option String)
    (feed : List TripUpdateEntity) (clock : Nat → ℚ) (stop_times : List StopTimeRow)
    (current_time : String)
    (hnot : stops stop_idq = none) :
    cmd_arrivals true stops routes trips stop_idq route_filter feed clock
        stop_times current_time
      = [Event.stopNotFoundMessage stop_idq, Event.suggestSearchMessage]
    ∧ Event.fetchTripUpdates ∉ cmd_arrivals true stops routes trips stop_idq route_filter
        feed clock stop_times current_time
    ∧ ∀ entries, Event.emit entries ∉ cmd_arrivals true stops routes trips stop_idq
        route_filter feed clock stop_times current_time := by
  have htrace : cmd_arrivals true stops routes trips stop_idq route_filter feed clock
      stop_times current_time
      = [Event.stopNotFoundMessage stop_idq, Event.suggestSearchMessage] := by
    unfold cmd_arrivals
    rw [if_neg (by simp), hnot]
  refine ⟨htrace, ?_, ?_⟩
  · rw [htrace]
    simp
  · intro entries
    rw [htrace]
    simp

/-- C9 witness: a concrete unknown stop id. -/
theorem claim_C9_witness :
    cmd_arrivals true stops0 routes0 trips0 "X" none [] (fun _ => (0 : ℚ)) [] ""
      = [Event.stopNotFoundMessage "X", Event.suggestSearchMessage]
    ∧ Event.fetchTripUpdates ∉ cmd_arrivals true stops0 routes0 trips0 "X" none []
        (fun _ => (0 : ℚ)) [] ""
    ∧ ∀ entries, Event.emit entries ∉ cmd_arrivals true stops0 routes0 trips0 "X" none []
        (fun _ => (0 : ℚ)) [] "" :=
  claim_C9 stops0 routes0 trips0 "X" none [] (fun _ => (0 : ℚ)) [] "" rfl

/-- C10: a real-time stop-time update with an arrival timestamp is taken from
the arrival time and arrival delay even when a departure is also present; one
with only a departure uses the departure time and delay; one with neither is
skipped entirely and contributes nothing to the result. -/
theorem claim_C10 (stu : StopTimeUpdate) :
    (stu.arrival.time ≠ 0 →
      stuChosen stu = some (stu.arrival.time,
        if stu.arrival.delay ≠ 0 then stu.arrival.delay else 0))
    ∧ (stu.arrival.time = 0 → stu.departure.time ≠ 0 →
      stuChosen stu = some (stu.departure.time,
        if stu.departure.delay ≠ 0 then stu.departure.delay else 0))
    ∧ (stu.arrival.time = 0 → stu.departure.time = 0 →
      stuChosen stu = none
      ∧ ∀ (routes : String → Option Route) (trips : String → Option Trip)
          (route_filter : Option String) (stop_idq : String) (now : ℚ)
          (e : TripUpdateEntity) (pre post : List StopTimeUpdate)
          (rest : List TripUpdateEntity),
          rt_arrivals routes trips route_filter stop_idq now
              ({ e with stop_time_update := pre ++ stu :: post } :: rest)
            = rt_arrivals routes trips route_filter stop_idq now
              ({ e with stop_time_update := pre ++ post } :: rest)) := by
  refine ⟨?_, ?_, ?_⟩
  · intro ha
    rw [stuChosen, if_pos ha]
  · intro ha hd
    rw [stuChosen, if_neg (by simp [ha]), if_pos hd]
  · intro ha hd
    have hnone : stuChosen stu = none := by
      rw [stuChosen, if_neg (by simp [ha]), if_neg (by simp [hd])]
    refine ⟨hnone, ?_⟩
    intro routes trips route_filter stop_idq now e pre post rest
    rw [rt_arrivals_eq_reconcileRT, rt_arrivals_eq_reconcileRT]
    simp only [reconcileRT, List.flatMap_cons]
    by_cases hf : routeFilterSkips route_filter e.route_id
    · simp [hf]
    · simp only [hf, Bool.false_eq_true, if_false]
      have : stuArrivalAt routes trips e.trip_id e.route_id stop_idq now stu = none := by
        rw [stuArrivalAt]
        by_cases hs : stu.stop_id = stop_idq
        · rw [if_pos hs, hnone]
        · rw [if_neg hs]
      simp [List.filterMap_append, List.filterMap_cons, this]

/-- C10 witness: a record carrying both timestamps uses the arrival one; a
record with only a departure uses it; a record with neither adds nothing. -/
theorem claim_C10_witness :
    stuChosen stuBoth = some (500, 30)
    ∧ stuChosen stuDepOnly = some (900, 60)
    ∧ stuChosen stuNoTime = none
    ∧ rt_arrivals routes0 trips0 none "S" 0 [entNoTime]
      = rt_arrivals routes0 trips0 none "S" 0 [entEmpty] := by
  refine ⟨?_, ?_, ?_, ?_⟩
  · simpa [stuBoth] using (claim_C10 stuBoth).1 (by decide)
  · simpa [stuDepOnly] using (claim_C10 stuDepOnly).2.1 rfl (by decide)
  · exact ((claim_C10 stuNoTime).2.2 rfl rfl).1
  · exact ((claim_C10 stuNoTime).2.2 rfl rfl).2 routes0 trips0 none "S" 0
      { trip_id := "T", route_id := "R", stop_time_update := [] } [] [] []

/-- C3: the scheduled fallback output is exactly the entries whose time string
is lexicographically greater than the current time string, sorted ascending by
that string, truncated to the first 10; on the spec example at 10:00:00 the
output order is 10:05:00 then 10:15:00 with 09:45:00 excluded. -/
theorem claim_C3 (routes : String → Option Route) (trips : String → Option Trip)
    (route_filter : Option String) (current_time : String)
    (stop_times : List StopTimeRow) :
    schedRanked routes trips route_filter current_time stop_times
      = (((schedEntriesAll routes trips route_filter stop_times).filter
            (fun e => lexLt current_time.data e.time.data)).mergeSort timeLe).take 10
    ∧ (schedRanked routes trips route_filter current_time stop_times).Pairwise
        (fun a b => timeLe a b = true)
    ∧ (∀ e ∈ schedRanked routes trips route_filter current_time stop_times,
        lexLt current_time.data e.time.data = true)
    ∧ schedRanked routes0 trips0 none "10:00:00" exampleRows
        = [{ route := "", headsign := "", time := "10:05:00" },
           { route := "", headsign := "", time := "10:15:00" }] := by
  have hup : schedUpcoming routes0 trips0 none "10:00:00" exampleRows
      = [{ route := "", headsign := "", time := "10:15:00" },
         { route := "", headsign := "", time := "10:05:00" }] := by rfl
  refine ⟨?_, ?_, ?_, ?_⟩
  · rw [schedRanked, schedUpcoming_eq_filter]
  · exact List.Pairwise.sublist (List.take_sublist 10 _)
      (List.sorted_mergeSort timeLe_trans timeLe_total _)
  · intro e he
    rw [schedRanked] at he
    have hmem := (List.take_sublist 10 _).subset he
    rw [List.mem_mergeSort, schedUpcoming_eq_filter] at hmem
    exact (List.mem_filter.mp hmem).2
  · rw [schedRanked, hup, mergeSort_pair]
    decide

/-- C3 witness: the entry at 10:05:00 is in the example output, so its time is
lexicographically above the current time 10:00:00. -/
theorem claim_C3_witness :
    lexLt ("10:00:00" : String).data ("10:05:00" : String).data = true := by
  have h := claim_C3 routes0 trips0 none "10:00:00" exampleRows
  have hm := h.2.2.1 { route := "", headsign := "", time := "10:05:00" }
    (by rw [h.2.2.2]; simp)
  simpa using hm

/-- C8 counterexample: `local_now()` is called inside the candidate loop, so
two candidates with the same arrival timestamp get `minutes_away` 0 and -2
under a clock that advances between the two reads; no single reconciliation
instant `now` reproduces this output. -/
theorem claim_C8_counterexample :
    ¬ ∃ now : ℚ, rt_arrivals_clocked routes0 trips0 none "S" clock8 feed8
      = reconcileRT routes0 trips0 none "S" now feed8 := by
  rintro ⟨now, h⟩
  have hL : rt_arrivals_clocked routes0 trips0 none "S" clock8 feed8
      = [{ route := "R", headsign := "", arrivalTs := 10000, mins_away := 0,
           delay_mins := 0 },
         { route := "R", headsign := "", arrivalTs := 10000, mins_away := -2,
           delay_mins := 0 }] := by
    norm_num [rt_arrivals_clocked, entitiesLoop, stusLoop, clock8, feed8, entAt, stuAt,
      stuChosen, mkRTArrival, routeFilterSkips, routes0, trips0, pyRound]
  rw [hL] at h
  cases hm : mkRTArrival routes0 trips0 "T1" "R" 10000 0 now with
  | none =>
    have hm2 : mkRTArrival routes0 trips0 "T2" "R" 10000 0 now = none := hm
    have hR : reconcileRT routes0 trips0 none "S" now feed8 = [] := by
      simp [reconcileRT, feed8, entAt, stuAt, stuArrivalAt, stuChosen, routeFilterSkips,
        List.filterMap_cons, hm, hm2]
    rw [hR] at h
    exact absurd h (by simp)
  | some c =>
    have hm2 : mkRTArrival routes0 trips0 "T2" "R" 10000 0 now = some c := hm
    have hR : reconcileRT routes0 trips0 none "S" now feed8 = [c, c] := by
      simp [reconcileRT, feed8, entAt, stuAt, stuArrivalAt, stuChosen, routeFilterSkips,
        List.filterMap_cons, hm, hm2]
    rw [hR] at h
    have h1 := (List.cons.inj h).1
    have h2 := (List.cons.inj (List.cons.inj h).2).1
    rw [← h1] at h2
    simp [RTArrival.mk.injEq] at h2

/-- C8 amended: the real-time reconciliation is a pure function of the query,
the feed, and the sequence of clock readings (one reading per candidate); runs
with equal inputs and pointwise-equal clocks produce equal outputs, and
whenever every clock reading returns the same instant `now` the result equals
the single-instant reconciliation relative to that `now`. -/
theorem claim_C8_amended (routes : String → Option Route) (trips : String → Option Trip)
    (route_filter : Option String) (stop_idq : String) (now : ℚ) (clock : Nat → ℚ)
    (feed : List TripUpdateEntity) (hconst : ∀ k, clock k = now) :
    rt_arrivals_clocked routes trips route_filter stop_idq clock feed
      = reconcileRT routes trips route_filter stop_idq now feed
    ∧ ∀ clock2 : Nat → ℚ, (∀ k, clock2 k = clock k) →
        rt_arrivals_clocked routes trips route_filter stop_idq clock2 feed
          = rt_arrivals_clocked routes trips route_filter stop_idq clock feed := by
  constructor
  · rw [show clock = fun _ => now from funext hconst]
    exact rt_arrivals_eq_reconcileRT routes trips route_filter stop_idq now feed
  · intro clock2 hsame
    rw [show clock2 = clock from funext hsame]

/-- C8 witness: with a constant clock the clocked loop coincides with the
single-instant reconciliation. -/
theorem claim_C8_witness :
    rt_arrivals_clocked routes0 trips0 none "S" (fun _ => (940 : ℚ)) [entAt "T" 1000]
      = reconcileRT routes0 trips0 none "S" 940 [entAt "T" 1000] :=
  (claim_C8_amended routes0 trips0 none "S" 940 (fun _ => (940 : ℚ)) [entAt "T" 1000]
    (fun _ => rfl)).1
